import Mathlib

set_option maxRecDepth 16384

/-!
Verification development for the clox-rs bytecode pipeline
(single-pass compiler, chunk emitter, stack VM with closures).

Shallow embedding conventions:
* Rust machine integers (`u8`, `u16`) are modelled as `Nat` together with
  explicit `% 256` / `% 65536` arithmetic at the points where the source
  converts or may wrap (`as u8`, unsigned subtraction).  Debug-build
  overflow panics are not distinguished from release-build wrapping; the
  theorems below only evaluate wrap-free paths except where a wrap is the
  point being proved.
* `f64` literals are modelled over `Rat`; all programs evaluated here only
  use small integral values, where `f64` and `Rat` arithmetic agree.
* Rust panics (`unwrap` on `None`, `unreachable!`) are modelled as the
  `crash` outcome of the step function.
* `Vec<Value>` used as the operand stack is modelled as a persistent cell
  `buffer` plus the vector length `len`: `set_len` only changes `len`,
  `push` overwrites the cell at index `len` (or appends), matching a `Vec`
  whose backing allocation does not move.  Raw `*mut Value` upvalue
  pointers (value.rs `Upvalue::location`) are modelled as indices into
  that buffer.
* `HashMap` (globals, scope locals) is modelled as an association list
  whose `insert` replaces in place or appends; iteration order is never
  observed by the claims.
-/

/-- chunk.rs `enum Op` (discriminants 0..=27). -/
inductive Op where
  | Constant
  | Nil
  | True
  | False
  | Pop
  | GetLocal
  | SetLocal
  | GetGlobal
  | DefineGlobal
  | SetGlobal
  | GetUpvalue
  | SetUpvalue
  | Equal
  | Greater
  | Less
  | Add
  | Subtract
  | Multiply
  | Divide
  | Not
  | Negate
  | Print
  | Jump
  | JumpIfFalse
  | Loop
  | Call
  | Closure
  | Return
  deriving DecidableEq, Repr

/-- chunk.rs `impl From<Op> for u8`: `op as u8`, i.e. the declaration-order
discriminant of the variant. -/
def Op.toByte : Op → Nat
  | .Constant => 0
  | .Nil => 1
  | .True => 2
  | .False => 3
  | .Pop => 4
  | .GetLocal => 5
  | .SetLocal => 6
  | .GetGlobal => 7
  | .DefineGlobal => 8
  | .SetGlobal => 9
  | .GetUpvalue => 10
  | .SetUpvalue => 11
  | .Equal => 12
  | .Greater => 13
  | .Less => 14
  | .Add => 15
  | .Subtract => 16
  | .Multiply => 17
  | .Divide => 18
  | .Not => 19
  | .Negate => 20
  | .Print => 21
  | .Jump => 22
  | .JumpIfFalse => 23
  | .Loop => 24
  | .Call => 25
  | .Closure => 26
  | .Return => 27

/-- chunk.rs `impl From<u8> for Op`: bytes 0..=27 decode to the matching
variant; the catch-all arm is `unreachable!`, modelled as `none`. -/
def Op.ofByte? : Nat → Option Op
  | 0 => some .Constant
  | 1 => some .Nil
  | 2 => some .True
  | 3 => some .False
  | 4 => some .Pop
  | 5 => some .GetLocal
  | 6 => some .SetLocal
  | 7 => some .GetGlobal
  | 8 => some .DefineGlobal
  | 9 => some .SetGlobal
  | 10 => some .GetUpvalue
  | 11 => some .SetUpvalue
  | 12 => some .Equal
  | 13 => some .Greater
  | 14 => some .Less
  | 15 => some .Add
  | 16 => some .Subtract
  | 17 => some .Multiply
  | 18 => some .Divide
  | 19 => some .Not
  | 20 => some .Negate
  | 21 => some .Print
  | 22 => some .Jump
  | 23 => some .JumpIfFalse
  | 24 => some .Loop
  | 25 => some .Call
  | 26 => some .Closure
  | 27 => some .Return
  | _ => none

/-- token.rs `enum Precedence`, in ascending declaration order. -/
inductive Precedence where
  | None
  | Assignment
  | Or
  | And
  | Equality
  | Comparison
  | Term
  | Factor
  | Unary
  | Call
  | Primary
  deriving DecidableEq, Repr

/-- token.rs `Precedence::up` (saturating at `Primary`). -/
def Precedence.up : Precedence → Precedence
  | .None => .Assignment
  | .Assignment => .Or
  | .Or => .And
  | .And => .Equality
  | .Equality => .Comparison
  | .Comparison => .Term
  | .Term => .Factor
  | .Factor => .Unary
  | .Unary => .Call
  | .Call => .Primary
  | .Primary => .Primary

/-- token.rs `enum TokenType`.  The `class` keyword's variant is spelled
`KwClass` here because of Lean lexical constraints; every other variant
keeps its source name. -/
inductive TokenType where
  | LeftParen
  | RightParen
  | LeftBrace
  | RightBrace
  | Comma
  | Dot
  | Minus
  | Plus
  | Semicolon
  | Slash
  | Star
  | Bang
  | BangEqual
  | Equal
  | EqualEqual
  | Greater
  | GreaterEqual
  | Less
  | LessEqual
  | Identifier
  | String
  | Number
  | And
  | KwClass
  | Else
  | False
  | For
  | Fun
  | If
  | Nil
  | Or
  | Print
  | Return
  | Super
  | This
  | True
  | Var
  | While
  deriving DecidableEq, Repr

/-- The parse-function pointers of parser.rs (`Parser::grouping`,
`Parser::unary`, ... ) modelled as an enumeration of their names.
`variableRef`, `andFn`, `orFn`, `stringLit` stand for `Parser::variable`,
`Parser::and`, `Parser::or`, `Parser::string`. -/
inductive ParseFn where
  | grouping
  | unary
  | binary
  | number
  | stringLit
  | literal
  | variableRef
  | andFn
  | orFn
  | call
  deriving DecidableEq, Repr

/-- token.rs `struct Rule`; the source fields `prefix` / `infix` are named
`prefixFn` / `infixFn` here because of Lean lexical constraints. -/
structure Rule where
  precedence : Precedence
  prefixFn : Option ParseFn
  infixFn : Option ParseFn
  deriving DecidableEq, Repr

/-- token.rs `TokenType::rule`, transcribed arm by arm
(`Rule::new(precedence, prefix, infix)`). -/
def TokenType.rule : TokenType → Rule
  | .LeftParen => ⟨.None, some .grouping, none⟩
  | .RightParen => ⟨.None, none, none⟩
  | .LeftBrace => ⟨.None, none, none⟩
  | .RightBrace => ⟨.None, none, none⟩
  | .Comma => ⟨.None, none, none⟩
  | .Dot => ⟨.None, none, none⟩
  | .Minus => ⟨.Term, some .unary, some .binary⟩
  | .Plus => ⟨.Term, none, some .binary⟩
  | .Semicolon => ⟨.None, none, none⟩
  | .Slash => ⟨.Factor, none, some .binary⟩
  | .Star => ⟨.Factor, none, some .binary⟩
  | .Bang => ⟨.None, some .unary, none⟩
  | .BangEqual => ⟨.Equality, none, some .binary⟩
  | .Equal => ⟨.None, none, none⟩
  | .EqualEqual => ⟨.Equality, none, some .binary⟩
  | .Greater => ⟨.Comparison, none, some .binary⟩
  | .GreaterEqual => ⟨.Comparison, none, some .binary⟩
  | .Less => ⟨.Comparison, none, some .binary⟩
  | .LessEqual => ⟨.Comparison, none, some .binary⟩
  | .Identifier => ⟨.None, none, none⟩
  | .String => ⟨.None, none, none⟩
  | .Number => ⟨.None, some .number, none⟩
  | .And => ⟨.None, none, none⟩
  | .KwClass => ⟨.None, none, none⟩
  | .Else => ⟨.None, none, none⟩
  | .False => ⟨.None, some .literal, none⟩
  | .For => ⟨.None, none, none⟩
  | .Fun => ⟨.None, none, none⟩
  | .If => ⟨.None, none, none⟩
  | .Nil => ⟨.None, some .literal, none⟩
  | .Or => ⟨.None, none, none⟩
  | .Print => ⟨.None, none, none⟩
  | .Return => ⟨.None, none, none⟩
  | .Super => ⟨.None, none, none⟩
  | .This => ⟨.None, none, none⟩
  | .True => ⟨.None, some .literal, none⟩
  | .Var => ⟨.None, none, none⟩
  | .While => ⟨.None, none, none⟩

/-! ## scope.rs -/

/-- scope.rs `struct Local` (`is_init`, `index : u8`). -/
structure Local where
  is_init : Bool
  index : Nat
  deriving DecidableEq, Repr

/-- scope.rs `Local::new_uninit`. -/
def Local.new_uninit (index : Nat) : Local := ⟨false, index⟩

/-- scope.rs `struct Scope`: a `HashMap<String, Local>`, modelled as an
association list with distinct keys whose `insert` replaces in place or
appends (`Scope.define`). -/
structure Scope where
  locals : List (String × Local)
  deriving DecidableEq, Repr

/-- `HashMap::insert` on the association-list model: replace the existing
entry for the key in place, else append. -/
def insertAssoc (l : List (String × Local)) (name : String) (v : Local) :
    List (String × Local) :=
  match l with
  | [] => [(name, v)]
  | (k, w) :: rest =>
      if k = name then (k, v) :: rest
      else (k, w) :: insertAssoc rest name v

/-- scope.rs `Scope::new`. -/
def Scope.new : Scope := ⟨[]⟩

/-- scope.rs `Scope::has`. -/
def Scope.has (s : Scope) (name : String) : Bool :=
  s.locals.any (fun p => p.1 = name)

/-- scope.rs `Scope::define`: `locals.insert(name, Local::new_uninit(index))`. -/
def Scope.define (s : Scope) (name : String) (index : Nat) : Scope :=
  ⟨insertAssoc s.locals name (Local.new_uninit index)⟩

/-- scope.rs `Scope::get`. -/
def Scope.get (s : Scope) (name : String) : Option Local :=
  (s.locals.find? (fun p => p.1 = name)).map Prod.snd

/-- scope.rs `Scope::len` (`HashMap::len`: number of distinct keys; the
association-list model keeps keys distinct, so this is the list length). -/
def Scope.len (s : Scope) : Nat := s.locals.length

/-- scope.rs `struct Scopes`.  The source keeps a `Vec<Scope>` whose last
element is the innermost scope; the model stores the innermost scope at the
head of the list.  `count : u8` starts at 1 for call-frame slot zero. -/
structure Scopes where
  scopes : List Scope
  count : Nat
  deriving DecidableEq, Repr

/-- scope.rs `Scopes::new`. -/
def Scopes.new : Scopes := ⟨[], 1⟩

/-- scope.rs `Scopes::push`. -/
def Scopes.push (s : Scopes) : Scopes := ⟨Scope.new :: s.scopes, s.count⟩

/-- scope.rs `Scopes::pop`: removes the innermost scope and subtracts its
length from `count`, returning the closed scope. -/
def Scopes.pop (s : Scopes) : Option (Scope × Scopes) :=
  match s.scopes with
  | [] => none
  | sc :: rest => some (sc, ⟨rest, s.count - sc.len⟩)

/-- scope.rs `Scopes::is_empty`. -/
def Scopes.is_empty (s : Scopes) : Bool := s.scopes.isEmpty

/-- scope.rs `Scopes::current_has`. -/
def Scopes.current_has (s : Scopes) (name : String) : Option Bool :=
  s.scopes.head?.map (fun sc => sc.has name)

/-- scope.rs `Scopes::define_uninit_local`: insert an uninitialized local
with slot `count` into the innermost scope, then `count.checked_add(1)`,
which fails (u8 overflow) exactly when `count = 255`.  On that failure the
source has already mutated the scope but aborts compilation, so only the
`ok` result is observable. -/
def Scopes.define_uninit_local (s : Scopes) (name : String) :
    Except String Scopes :=
  match s.scopes with
  | [] => .error "Can't define a local variable without scope."
  | sc :: rest =>
      let sc' := sc.define name s.count
      if s.count = 255 then .error "Too many local variables in function."
      else .ok ⟨sc' :: rest, s.count + 1⟩

/-- scope.rs `Scopes::mark_init_local`: flip the innermost matching local
to initialized. -/
def Scopes.mark_init_local (s : Scopes) (name : String) : Scopes :=
  let rec go : List Scope → List Scope
    | [] => []
    | sc :: rest =>
        if sc.has name then
          ⟨insertAssoc sc.locals name
            ⟨true, ((sc.get name).map Local.index).getD 0⟩⟩ :: rest
        else sc :: go rest
  ⟨go s.scopes, s.count⟩

/-- scope.rs `Scopes::resolve_local`: walk scopes innermost-first; a hit on
an uninitialized local is the self-initializer error. -/
def Scopes.resolve_local (s : Scopes) (name : String) :
    Except String (Option Local) :=
  let rec go : List Scope → Except String (Option Local)
    | [] => .ok none
    | sc :: rest =>
        match sc.get name with
        | some lcl =>
            if lcl.is_init then .ok (some lcl)
            else .error "Can't read local variable in its own initializer."
        | none => go rest
  go s.scopes

/-! ## compiler.rs -/

/-- scope.rs `struct Upvalue` (compile-time descriptor).  The struct is
absent from the given scope.rs revision; its two fields are fixed by its
uses in compiler.rs `add_upvalue` (`Upvalue { index, is_local }`) and
chunk.rs `emit_upvalue` (reads `.is_local` and `.index`). -/
structure UpvalueC where
  index : Nat
  is_local : Bool
  deriving DecidableEq, Repr

/-- compiler.rs `struct Compiler`: a linked chain via `enclosing`.  The
`function` field is omitted here: `resolve_upvalue` / `add_upvalue`, the
operations under verification, never touch it. -/
inductive Compiler where
  | mk (enclosing : Option Compiler) (scopes : Scopes)
      (upvalues : List UpvalueC)

/-- The `upvalues` field of a `Compiler`. -/
def Compiler.upvalues : Compiler → List UpvalueC
  | .mk _ _ u => u

/-- The `scopes` field of a `Compiler`. -/
def Compiler.scopes : Compiler → Scopes
  | .mk _ s _ => s

/-- The `enclosing` field of a `Compiler`. -/
def Compiler.enclosing : Compiler → Option Compiler
  | .mk e _ _ => e

/-- compiler.rs `Compiler::add_upvalue`: error when `len > u8::MAX`
(i.e. at least 256 descriptors already exist), otherwise push the new
descriptor unconditionally and return the previous length.  There is no
deduplication in the source. -/
def Compiler.add_upvalue (c : Compiler) (index : Nat) (is_local : Bool) :
    Except String (Nat × Compiler) :=
  let len := c.upvalues.length
  if len > 255 then .error "Too many closure variables in function."
  else
    .ok (len, .mk c.enclosing c.scopes (c.upvalues ++ [⟨index, is_local⟩]))

/-- compiler.rs `Compiler::resolve_upvalue`.  The source line
`local.is_captured = true` has no counterpart: the given scope.rs `Local`
has no `is_captured` field (stale revision), and the flag is never read.
Since the Rust code mutates the enclosing chain, the model returns the
updated compiler alongside the optional descriptor index. -/
def Compiler.resolve_upvalue (c : Compiler) (name : String) :
    Except String (Option Nat × Compiler) :=
  match c with
  | .mk none _ _ => .ok (none, c)
  | .mk (some enc) s u =>
      match enc.scopes.resolve_local name with
      | .error e => .error e
      | .ok (some lcl) =>
          match Compiler.add_upvalue (.mk (some enc) s u) lcl.index true with
          | .error e => .error e
          | .ok (i, c') => .ok (some i, c')
      | .ok none =>
          match enc.resolve_upvalue name with
          | .error e => .error e
          | .ok (some index, enc') =>
              match Compiler.add_upvalue (.mk (some enc') s u) index false with
              | .error e => .error e
              | .ok (i, c') => .ok (some i, c')
          | .ok (none, enc') => .ok (none, .mk (some enc') s u)

/-! ## value.rs and chunk.rs data model -/

/-- value.rs `enum FunctionKind`.  The `Function { name }` variant is
spelled `Fn` here (`Function` is taken by the struct below). -/
inductive FunctionKind where
  | Fn (name : String)
  | Script
  deriving DecidableEq, Repr

/-- chunk.rs `struct Chunk`, parametrized by the value type to express the
`Chunk` / `Value` mutual recursion (`Value` instantiates `V`). -/
structure ChunkP (V : Type) where
  codes : List Nat
  constants : List V
  deriving Repr

/-- value.rs `struct Function`, parametrized like `ChunkP`. -/
structure FunctionP (V : Type) where
  kind : FunctionKind
  arity : Nat
  chunk : ChunkP V
  deriving Repr

/-- value.rs `struct Upvalue` (runtime): `location : *mut Value`, a raw
pointer into the operand stack's backing buffer, modelled as the buffer
index it points at. -/
structure Upvalue where
  location : Nat
  deriving DecidableEq, Repr

/-- value.rs `struct Closure`, parametrized like `ChunkP`. -/
structure ClosureP (V : Type) where
  function : FunctionP V
  upvalues_len : Nat
  upvalues : List Upvalue
  deriving Repr

/-- value.rs `enum Value`.  The `Bool` variant is spelled `VBool` here so
that `Bool` still denotes the builtin type inside the `Value` namespace;
every other variant keeps its source name. -/
inductive Value where
  | VBool (b : Bool)
  | Nil
  | Number (n : Rat)
  | Str (s : String)
  | Function (f : FunctionP Value)
  | Closure (c : ClosureP Value)

/-- chunk.rs `Chunk` with `Value` constants. -/
abbrev Chunk := ChunkP Value

/-- value.rs `Function` over `Value`. -/
abbrev Function := FunctionP Value

/-- value.rs `Closure` over `Value`. -/
abbrev Closure := ClosureP Value

/-- value.rs `Closure::new`: empty runtime upvalue list. -/
def Closure.new (f : Function) (upvalues_len : Nat) : Closure :=
  ⟨f, upvalues_len, []⟩

/-- value.rs `Value::is_falsey`: `Nil` and `Bool(false)` are falsey. -/
def Value.is_falsey : Value → Bool
  | .Nil => true
  | .VBool b => !b
  | _ => false

/-- value.rs `Value::equal`: structural on numbers, bools, nil, strings;
every other pairing is `false`. -/
def Value.equal : Value → Value → Bool
  | .Number a, .Number b => a == b
  | .VBool a, .VBool b => a == b
  | .Nil, .Nil => true
  | .Str a, .Str b => a == b
  | _, _ => false

/-- value.rs `Value::as_number`. -/
def Value.as_number : Value → Option Rat
  | .Number n => some n
  | _ => none

/-- value.rs `Value::as_string`. -/
def Value.as_string : Value → Option String
  | .Str s => some s
  | _ => none

/-- value.rs `Value::is_string`. -/
def Value.is_string : Value → Bool
  | .Str _ => true
  | _ => false

/-- value.rs `Value::is_number`. -/
def Value.is_number : Value → Bool
  | .Number _ => true
  | _ => false

/-! ## chunk.rs emission helpers -/

/-- `u16` wrapping subtraction, as performed by the host on
`a - b` at type `u16` (release profile). -/
def u16sub (a b : Nat) : Nat := (a % 65536 + 65536 - b % 65536) % 65536

/-- `u16` wrapping addition. -/
def u16add (a b : Nat) : Nat := (a + b) % 65536

/-- `u8` wrapping subtraction. -/
def u8sub (a b : Nat) : Nat := (a % 256 + 256 - b % 256) % 256

/-- chunk.rs `Chunk::emit_op`: push the opcode byte. -/
def Chunk.emit_op (c : Chunk) (op : Op) : Chunk :=
  { c with codes := c.codes ++ [op.toByte] }

/-- chunk.rs `Chunk::write`: overwrite the byte at `at_`; the
out-of-bounds case is the source's `"The index is out of bound"` error. -/
def Chunk.write (c : Chunk) (byte at_ : Nat) : Except String Chunk :=
  if at_ < c.codes.length then .ok { c with codes := c.codes.set at_ byte }
  else .error "The index is out of bound"

/-- chunk.rs `Chunk::emit_jump`: emit the opcode and two `0xff` placeholder
bytes; fail when the resulting code length exceeds `u16::MAX`; return the
position of the first placeholder byte. -/
def Chunk.emit_jump (c : Chunk) (op : Op) : Except String (Nat × Chunk) :=
  let c1 := { c with codes := (c.emit_op op).codes ++ [0xff, 0xff] }
  let len := c1.codes.length
  if len > 65535 then .error "Too much code..."
  else .ok (len - 2, c1)

/-- chunk.rs `Chunk::patch_jump`: with `len` the current code length, fail
when `len > u16::MAX`, else write `len - 2 - start` (u16 arithmetic,
`to_ne_bytes`: low byte first on the little-endian hosts the crate
targets) into the two placeholder bytes. -/
def Chunk.patch_jump (c : Chunk) (start : Nat) : Except String Chunk :=
  let len := c.codes.length
  if len > 65535 then .error "Too much code to jump over."
  else
    let offset := u16sub (u16sub len 2) start
    match c.write (offset % 256) start with
    | .error e => .error e
    | .ok c1 => c1.write (offset / 256) (start + 1)

/-- chunk.rs `Chunk::emit_loop`: emit `LOOP`, then with `len` the code
length including the just-emitted `LOOP` byte, fail when `len > u16::MAX`,
else append `len + 2 - start` (u16 arithmetic, low byte first). -/
def Chunk.emit_loop (c : Chunk) (start : Nat) : Except String Chunk :=
  let c1 := c.emit_op .Loop
  let len := c1.codes.length
  if len > 65535 then .error "Loop body too large."
  else
    let offset := u16sub (u16add len 2) start
    .ok { c1 with codes := c1.codes ++ [offset % 256, offset / 256] }

/-- chunk.rs `Chunk::add_constant`: fail when the pool already holds more
than `u8::MAX` entries, else append and return the new index. -/
def Chunk.add_constant (c : Chunk) (v : Value) : Except String (Nat × Chunk) :=
  let index := c.constants.length
  if index > 255 then .error "Too many constants in one chunk."
  else .ok (index, { c with constants := c.constants ++ [v] })

/-! ## vm.rs -/

/-- vm.rs `struct CallFrame`: `index` is the `u16` instruction pointer,
`start` the `u8` slot base.  `step_ahead` / `step_back` wrap at `u16`
width as the host arithmetic does. -/
structure CallFrame where
  closure : Closure
  index : Nat
  start : Nat

/-- vm.rs `CallFrame::read_byte`: fetch `codes[index]` (panic on
out-of-range is the `none` case) and advance. -/
def CallFrame.read_byte? (f : CallFrame) : Option (Nat × CallFrame) :=
  (f.closure.function.chunk.codes.get? f.index).map
    (fun b => (b, { f with index := f.index + 1 }))

/-- vm.rs `CallFrame::read_short`: two bytes reassembled at native
(little-endian) order, low byte first. -/
def CallFrame.read_short? (f : CallFrame) : Option (Nat × CallFrame) :=
  match f.read_byte? with
  | none => none
  | some (b0, f1) =>
      match f1.read_byte? with
      | none => none
      | some (b1, f2) => some (b0 + 256 * b1, f2)

/-- vm.rs `CallFrame::read_constant`: read a byte and index the constant
pool (panic on out-of-range is the `none` case). -/
def CallFrame.read_constant? (f : CallFrame) : Option (Value × CallFrame) :=
  match f.read_byte? with
  | none => none
  | some (b, f1) =>
      (f.closure.function.chunk.constants.get? b).map (fun v => (v, f1))

/-- `Vec::push` on the persistent-buffer stack model: write the cell at
index `i` (the current length) or append when the buffer holds no spare
cell there. -/
def vecWrite (l : List Value) (i : Nat) (v : Value) : List Value :=
  if i < l.length then l.set i v else l ++ [v]

/-- vm.rs `struct VM` together with the run-local state: `buffer`/`len`
model the operand-stack `Vec` (see the header comment), `output` collects
the values printed by `Op::Print`. -/
structure VM where
  frames : List CallFrame
  buffer : List Value
  len : Nat
  globals : List (String × Value)
  output : List Value

/-- The `push!` macro of vm.rs `VM::run`. -/
def VM.push (vm : VM) (v : Value) : VM :=
  { vm with buffer := vecWrite vm.buffer vm.len v, len := vm.len + 1 }

/-- The `pop!` macro of vm.rs `VM::run` (`stack.pop().unwrap()`); `none`
models the panic on an empty stack.  The popped cell keeps its bits in the
backing buffer, as a `Vec` pop leaves them. -/
def VM.popVal (vm : VM) : Option (Value × VM) :=
  if vm.len = 0 then none
  else (vm.buffer.get? (vm.len - 1)).map
    (fun v => (v, { vm with len := vm.len - 1 }))

/-- The `peek!` macro of vm.rs `VM::run`
(`stack.get(len - 1 - d).unwrap()`). -/
def VM.peekVal (vm : VM) (d : Nat) : Option Value :=
  if d + 1 ≤ vm.len then vm.buffer.get? (vm.len - 1 - d) else none

/-- `HashMap::get` on the globals association list. -/
def lookupGlobal : List (String × Value) → String → Option Value
  | [], _ => none
  | (k, v) :: rest, name => if k = name then some v else lookupGlobal rest name

/-- `HashMap::insert` on the globals association list: replace in place or
append, returning the previous value as `HashMap::insert` does. -/
def insertGlobal : List (String × Value) → String → Value →
    Option Value × List (String × Value)
  | [], name, v => (none, [(name, v)])
  | (k, w) :: rest, name, v =>
      if k = name then (some w, (k, v) :: rest)
      else
        let r := insertGlobal rest name v
        (r.1, (k, w) :: r.2)

/-- value.rs `Closure::call`'s arity-mismatch message
(`format!("Expected {} arguments but got {}.", arity, arg_count)`). -/
def expectedMsg (arity arg_count : Nat) : String :=
  "Expected " ++ toString arity ++ " arguments but got " ++
    toString arg_count ++ "."

/-- value.rs `Closure::call`: arity check, then the 255 frame cap
(`frames.len() >= u8::MAX`), then push the suspended frame and build the
callee frame with `start = stack.len() as u8 - arg_count - 1` (the `as u8`
truncation and `u8` subtractions are modelled exactly). -/
def Closure.call (c : Closure) (vm : VM) (arg_count : Nat)
    (frame : CallFrame) : Except String (VM × CallFrame) :=
  if arg_count ≠ c.function.arity then
    .error (expectedMsg c.function.arity arg_count)
  else if vm.frames.length ≥ 255 then .error "stack overflow."
  else
    .ok ({ vm with frames := frame :: vm.frames },
         ⟨c, 0, u8sub (u8sub (vm.len % 256) arg_count) 1⟩)

/-- value.rs `Function::call`: wrap in `Closure::new(self, 0)` and call. -/
def Function.call (f : Function) (vm : VM) (arg_count : Nat)
    (frame : CallFrame) : Except String (VM × CallFrame) :=
  Closure.call (Closure.new f 0) vm arg_count frame

/-- vm.rs `VM::call`: dispatch on the callee value. -/
def VM.call (vm : VM) (callee : Value) (arg_count : Nat)
    (frame : CallFrame) : Except String (VM × CallFrame) :=
  match callee with
  | .Closure c => Closure.call c vm arg_count frame
  | .Function f => Function.call f vm arg_count frame
  | _ => .error "Can only call functions and classes."

/-- vm.rs `VM::function_return`: `set_len(frame.start())` (the truncated
cells stay in the buffer), push the result, pop the caller frame
(`unwrap` panic on an empty frame stack is the `none` case). -/
def VM.function_return (vm : VM) (result : Value) (frame : CallFrame) :
    Option (VM × CallFrame) :=
  let vm2 := VM.push { vm with len := frame.start } result
  match vm2.frames with
  | [] => none
  | f :: rest => some ({ vm2 with frames := rest }, f)

/-- Outcome of one dispatch-loop iteration of vm.rs `VM::run`:
`ok` continues, `halt` is the `break` after the script returns, `err` is
an `Err(message)` return (the mutated `VM` is kept, as `run` takes
`&mut self`), `crash` is a Rust panic or `unreachable!`. -/
inductive StepRes where
  | ok (vm : VM) (frame : CallFrame)
  | halt (vm : VM)
  | err (msg : String) (vm : VM)
  | crash

/-- The upvalue-capture loop of vm.rs `Op::Closure`: read `n` descriptor
pairs, capturing `&mut stack[frame.start() + index]` for locals (a pointer
into the buffer) and cloning `frame.closure.upvalues[index]` otherwise. -/
def readClosureUpvalues (vm : VM) (cl : Closure) (frame : CallFrame) :
    Nat → Option (Closure × CallFrame)
  | 0 => some (cl, frame)
  | n + 1 =>
      match frame.read_byte? with
      | none => none
      | some (isLocalByte, f1) =>
          match f1.read_byte? with
          | none => none
          | some (idx, f2) =>
              if isLocalByte = 1 then
                let loc := (f2.start + idx) % 256
                if loc < vm.len then
                  readClosureUpvalues vm
                    { cl with upvalues := cl.upvalues ++ [⟨loc⟩] } f2 n
                else none
              else
                match f2.closure.upvalues.get? idx with
                | none => none
                | some u =>
                    readClosureUpvalues vm
                      { cl with upvalues := cl.upvalues ++ [u] } f2 n

/-- The body of one `match op` arm of vm.rs `VM::run`, operating on the
frame already advanced past the opcode byte. -/
def execOp (vm : VM) (frame : CallFrame) : Op → StepRes
  | .Constant =>
      match frame.read_constant? with
      | none => .crash
      | some (v, f1) => .ok (vm.push v) f1
  | .Nil => .ok (vm.push .Nil) frame
  | .True => .ok (vm.push (.VBool true)) frame
  | .False => .ok (vm.push (.VBool false)) frame
  | .Pop =>
      match vm.popVal with
      | none => .crash
      | some (_, vm1) => .ok vm1 frame
  | .GetLocal =>
      match frame.read_byte? with
      | none => .crash
      | some (b, f1) =>
          let idx := (f1.start + b) % 256
          if idx < vm.len then
            match vm.buffer.get? idx with
            | none => .crash
            | some v => .ok (vm.push v) f1
          else .crash
  | .SetLocal =>
      match vm.peekVal 0 with
      | none => .crash
      | some v =>
          match frame.read_byte? with
          | none => .crash
          | some (b, f1) =>
              let idx := (f1.start + b) % 256
              if idx < vm.len then
                .ok { vm with buffer := vm.buffer.set idx v } f1
              else .crash
  | .GetGlobal =>
      match frame.read_constant? with
      | none => .crash
      | some (nameV, f1) =>
          match nameV.as_string with
          | none => .crash
          | some name =>
              match lookupGlobal vm.globals name with
              | none => .err "Undefined variable." vm
              | some v => .ok (vm.push v) f1
  | .DefineGlobal =>
      match frame.read_constant? with
      | none => .crash
      | some (nameV, f1) =>
          match nameV.as_string with
          | none => .crash
          | some name =>
              match vm.popVal with
              | none => .crash
              | some (v, vm1) =>
                  .ok { vm1 with globals := (insertGlobal vm1.globals name v).2 } f1
  | .SetGlobal =>
      match frame.read_constant? with
      | none => .crash
      | some (nameV, f1) =>
          match nameV.as_string with
          | none => .crash
          | some name =>
              match vm.peekVal 0 with
              | none => .crash
              | some v =>
                  let r := insertGlobal vm.globals name v
                  let vm1 := { vm with globals := r.2 }
                  match r.1 with
                  | none => .err "Undefined variable." vm1
                  | some _ => .ok vm1 f1
  | .GetUpvalue =>
      match frame.read_byte? with
      | none => .crash
      | some (idx, f1) =>
          match f1.closure.upvalues.get? idx with
          | none => .crash
          | some u =>
              match vm.buffer.get? u.location with
              | none => .crash
              | some v => .ok (vm.push v) f1
  | .SetUpvalue =>
      match frame.read_byte? with
      | none => .crash
      | some (idx, f1) =>
          if vm.len = 0 then .crash
          else
            match f1.closure.upvalues.get? idx with
            | none => .crash
            | some _ =>
                .ok vm
                  { f1 with closure :=
                      { f1.closure with upvalues :=
                          f1.closure.upvalues.set idx ⟨vm.len - 1⟩ } }
  | .Equal =>
      match vm.popVal with
      | none => .crash
      | some (b, vm1) =>
          match vm1.popVal with
          | none => .crash
          | some (a, vm2) => .ok (vm2.push (.VBool (Value.equal a b))) frame
  | .Greater =>
      match vm.popVal with
      | none => .crash
      | some (bv, vm1) =>
          match bv.as_number with
          | none => .err "Operand must be a number." vm1
          | some b =>
              match vm1.popVal with
              | none => .crash
              | some (av, vm2) =>
                  match av.as_number with
                  | none => .err "Operand must be a number." vm2
                  | some a => .ok (vm2.push (.VBool (decide (a > b)))) frame
  | .Less =>
      match vm.popVal with
      | none => .crash
      | some (bv, vm1) =>
          match bv.as_number with
          | none => .err "Operand must be a number." vm1
          | some b =>
              match vm1.popVal with
              | none => .crash
              | some (av, vm2) =>
                  match av.as_number with
                  | none => .err "Operand must be a number." vm2
                  | some a => .ok (vm2.push (.VBool (decide (a < b)))) frame
  | .Add =>
      match vm.popVal with
      | none => .crash
      | some (b, vm1) =>
          match vm1.popVal with
          | none => .crash
          | some (a, vm2) =>
              if b.is_string && a.is_string then
                match a.as_string, b.as_string with
                | some sa, some sb => .ok (vm2.push (.Str (sa ++ sb))) frame
                | _, _ => .crash
              else if b.is_number && a.is_number then
                match a.as_number, b.as_number with
                | some na, some nb => .ok (vm2.push (.Number (na + nb))) frame
                | _, _ => .crash
              else .err "Operands must be two numbers or two strings." vm2
  | .Subtract =>
      match vm.popVal with
      | none => .crash
      | some (bv, vm1) =>
          match bv.as_number with
          | none => .err "Operand must be a number." vm1
          | some b =>
              match vm1.popVal with
              | none => .crash
              | some (av, vm2) =>
                  match av.as_number with
                  | none => .err "Operand must be a number." vm2
                  | some a => .ok (vm2.push (.Number (a - b))) frame
  | .Multiply =>
      match vm.popVal with
      | none => .crash
      | some (bv, vm1) =>
          match bv.as_number with
          | none => .err "Operand must be a number." vm1
          | some b =>
              match vm1.popVal with
              | none => .crash
              | some (av, vm2) =>
                  match av.as_number with
                  | none => .err "Operand must be a number." vm2
                  | some a => .ok (vm2.push (.Number (a * b))) frame
  | .Divide =>
      match vm.popVal with
      | none => .crash
      | some (bv, vm1) =>
          match bv.as_number with
          | none => .err "Operand must be a number." vm1
          | some b =>
              match vm1.popVal with
              | none => .crash
              | some (av, vm2) =>
                  match av.as_number with
                  | none => .err "Operand must be a number." vm2
                  | some a => .ok (vm2.push (.Number (a / b))) frame
  | .Not =>
      match vm.popVal with
      | none => .crash
      | some (v, vm1) => .ok (vm1.push (.VBool v.is_falsey)) frame
  | .Negate =>
      match vm.popVal with
      | none => .crash
      | some (v, vm1) =>
          match v.as_number with
          | none => .err "Operand must be a number." vm1
          | some n => .ok (vm1.push (.Number (-n))) frame
  | .Print =>
      match vm.popVal with
      | none => .crash
      | some (v, vm1) => .ok { vm1 with output := vm1.output ++ [v] } frame
  | .Jump =>
      match frame.read_short? with
      | none => .crash
      | some (offset, f1) => .ok vm { f1 with index := u16add f1.index offset }
  | .JumpIfFalse =>
      match frame.read_short? with
      | none => .crash
      | some (offset, f1) =>
          match vm.peekVal 0 with
          | none => .crash
          | some v =>
              if v.is_falsey then
                .ok vm { f1 with index := u16add f1.index offset }
              else .ok vm f1
  | .Loop =>
      match frame.read_short? with
      | none => .crash
      | some (offset, f1) => .ok vm { f1 with index := u16sub f1.index offset }
  | .Call =>
      match frame.read_byte? with
      | none => .crash
      | some (arg_count, f1) =>
          match vm.peekVal arg_count with
          | none => .crash
          | some callee =>
              match vm.call callee arg_count f1 with
              | .error e => .err e vm
              | .ok (vm1, f2) => .ok vm1 f2
  | .Closure =>
      match frame.read_constant? with
      | none => .crash
      | some (cv, f1) =>
          match cv with
          | .Closure cl =>
              match readClosureUpvalues vm cl f1 cl.upvalues_len with
              | none => .crash
              | some (cl', f2) => .ok (vm.push (.Closure cl')) f2
          | _ => .crash
  | .Return =>
      match vm.popVal with
      | none => .crash
      | some (result, vm1) =>
          if vm1.frames.isEmpty then
            match vm1.popVal with
            | none => .crash
            | some (_, vm2) => .halt vm2
          else
            match vm1.function_return result frame with
            | none => .crash
            | some (vm2, f2) => .ok vm2 f2

/-- One iteration of the dispatch loop of vm.rs `VM::run`: read the opcode
byte, decode it (`unreachable!` on 28..=255 is `crash`), execute. -/
def VM.step (vm : VM) (frame : CallFrame) : StepRes :=
  match frame.read_byte? with
  | none => .crash
  | some (b, f1) =>
      match Op.ofByte? b with
      | none => .crash
      | some op => execOp vm f1 op

/-- Outcome of running the dispatch loop to completion (with fuel). -/
inductive RunRes where
  | halted (vm : VM)
  | errored (msg : String) (vm : VM)
  | fuelOut
  | crashed

/-- vm.rs `VM::run`'s loop, with fuel for termination. -/
def VM.runFuel : Nat → VM → CallFrame → RunRes
  | 0, _, _ => .fuelOut
  | n + 1, vm, frame =>
      match vm.step frame with
      | .ok vm1 f1 => VM.runFuel n vm1 f1
      | .halt vm1 => .halted vm1
      | .err msg vm1 => .errored msg vm1
      | .crash => .crashed

/-- vm.rs `VM::from_closure` composed with the frame pop at the top of
`VM::run`: the script closure occupies stack slot 0 and the active frame
starts at `slot_base = 0`; the frame `Vec` is empty while the script frame
is live. -/
def VM.from_closure (c : Closure) : VM × CallFrame :=
  (⟨[], [.Closure c], 1, [], []⟩, ⟨c, 0, 0⟩)

/-- The print output at the end of a finished (halted or user-errored)
run. -/
def RunRes.finalOutput : RunRes → Option (List Value)
  | .halted vm => some vm.output
  | .errored _ vm => some vm.output
  | _ => none

/-! ## Concrete programs and states used by the claim theorems

`innerFn` / `outerFn` / `scriptA` / `scriptB` are the chunks the compiler
(parser.rs + chunk.rs) produces for

  `fun outer() { var x = 1; fun inner() { print x; } return inner; }`

followed by either `outer()();` (script A, the program quoted by the
upvalue claim) or `var f = outer(); print 1 + f();` (script B), derived
instruction by instruction from `fun_declaration` / `var_declaration` /
`function` / `variable` / `call` / `number` / `binary` /
`print_statement` / `expression_statement` and the `end_compiler`
`NIL`+`RETURN` suffix. -/

/-- `fun inner() { print x; }`: GET_UPVALUE 0; PRINT; NIL; RETURN. -/
def innerFn : Function := ⟨.Fn "inner", 0, ⟨[10, 0, 21, 1, 27], []⟩⟩

/-- The constant-pool closure shell for `inner`
(`Closure::new(function, 1)`: one upvalue descriptor, empty runtime
list). -/
def innerClosureC : Closure := ⟨innerFn, 1, []⟩

/-- `fun outer() { ... }`: CONSTANT 0 (`1`); CLOSURE 1 with capture bytes
`(1, 1)` (local slot 1, `x`); GET_LOCAL 2 (`inner`); RETURN; NIL;
RETURN.  Constants: `1`, the `inner` closure shell. -/
def outerFn : Function :=
  ⟨.Fn "outer", 0,
    ⟨[0, 0, 26, 1, 1, 1, 5, 2, 27, 1, 27],
     [.Number 1, .Closure innerClosureC]⟩⟩

/-- The constant-pool closure shell for `outer` (no upvalues). -/
def outerClosureC : Closure := ⟨outerFn, 0, []⟩

/-- Script A, `outer()();`: CLOSURE 1; DEFINE_GLOBAL 0; GET_GLOBAL 2;
CALL 0; CALL 0; POP; NIL; RETURN. -/
def scriptA : Function :=
  ⟨.Script, 0,
    ⟨[26, 1, 8, 0, 7, 2, 25, 0, 25, 0, 4, 1, 27],
     [.Str "outer", .Closure outerClosureC, .Str "outer"]⟩⟩

/-- Script B, `var f = outer(); print 1 + f();` after the `outer`
declaration: CLOSURE 1; DEFINE_GLOBAL 0 (`outer`); GET_GLOBAL 3; CALL 0;
DEFINE_GLOBAL 2 (`f`); CONSTANT 4 (`1`); GET_GLOBAL 5; CALL 0; ADD;
PRINT; NIL; RETURN. -/
def scriptB : Function :=
  ⟨.Script, 0,
    ⟨[26, 1, 8, 0, 7, 3, 25, 0, 8, 2, 0, 4, 7, 5, 25, 0, 15, 21, 1, 27],
     [.Str "outer", .Closure outerClosureC, .Str "f", .Str "outer",
      .Number 1, .Str "f"]⟩⟩

/-- The runtime `inner` closure produced by `Op::Closure`: its single
upvalue is a raw pointer at buffer cell 2, the stack slot that held the
local `x` while `outer` was live. -/
def innerRuntime : Closure := ⟨innerFn, 1, [⟨2⟩]⟩

/-- vm.rs `Op::SetGlobal` demonstration state: stack `[7]`, empty
globals, about to run SET_GLOBAL on the (undefined) name `"x"`. -/
def fnSetG : Function := ⟨.Script, 0, ⟨[9, 0], [.Str "x"]⟩⟩

/-- The VM state for the SET_GLOBAL demonstration. -/
def vmSetG : VM := ⟨[], [.Number 7], 1, [], []⟩

/-- The active frame for the SET_GLOBAL demonstration. -/
def frameSetG : CallFrame := ⟨⟨fnSetG, 0, []⟩, 0, 0⟩

/-- vm.rs `Op::SetUpvalue` demonstration: the active closure's upvalue 0
points at buffer cell 0 (holding `1`); the stack top (cell 1) holds `5`;
the code is SET_UPVALUE 0. -/
def fnSetU : Function := ⟨.Fn "g", 0, ⟨[11, 0], []⟩⟩

/-- The active closure for the SET_UPVALUE demonstration. -/
def clSetU : Closure := ⟨fnSetU, 1, [⟨0⟩]⟩

/-- The VM state for the SET_UPVALUE demonstration. -/
def vmSetU : VM := ⟨[], [.Number 1, .Number 5], 2, [], []⟩

/-- The active frame for the SET_UPVALUE demonstration. -/
def frameSetU : CallFrame := ⟨clSetU, 0, 0⟩

/-- An arity-1 callee for the `Closure::call` slot-base demonstration. -/
def clCallee : Closure := ⟨⟨.Fn "g", 1, ⟨[], []⟩⟩, 0, []⟩

/-- A VM whose operand stack holds 258 values: reachable within the
spec's own resource bounds (255 frames of up to 256 slots each), e.g. via
a chain of calls whose frames hold 254 initialized locals each. -/
def vmBigStack : VM := ⟨[], List.replicate 258 Value.Nil, 258, [], []⟩

/-- A suspended caller frame for the `Closure::call` demonstration. -/
def frameCaller : CallFrame := ⟨⟨⟨.Script, 0, ⟨[], []⟩⟩, 0, []⟩, 0, 0⟩

/-- An enclosing compiler owning the initialized local `x` at slot 1. -/
def encX : Compiler :=
  .mk none ⟨[⟨[("x", ⟨true, 1⟩)]⟩], 2⟩ []

/-- A current compiler that already holds the descriptor
`(is_local = true, index = 1)` for `x`. -/
def compX : Compiler := .mk (some encX) Scopes.new [⟨1, true⟩]

/-! ## Reachable `Scopes` states (scope.rs)

`ScopesReach` closes `Scopes::new` under the three mutators, with
`define_uninit_local` restricted to the claim's proviso that no name is
defined twice within one scope — exactly the guard `parse_local_variable`
enforces via `current_has` before every definition. -/

/-- The `Scopes` states reachable by duplicate-free use of the scope.rs
API. -/
inductive ScopesReach : Scopes → Prop where
  | new : ScopesReach Scopes.new
  | push (s : Scopes) : ScopesReach s → ScopesReach s.push
  | pop (s : Scopes) (sc : Scope) (s' : Scopes) : ScopesReach s →
      s.pop = some (sc, s') → ScopesReach s'
  | define (s : Scopes) (name : String) (s' : Scopes) : ScopesReach s →
      s.current_has name ≠ some true →
      s.define_uninit_local name = .ok s' → ScopesReach s'

/-- Total number of live locals across the open scopes. -/
def sumLens (l : List Scope) : Nat := (l.map Scope.len).sum

/-- Strengthened slot-index bound: the innermost scope's locals sit below
`c`, and after peeling it off the remaining locals sit below `c` minus its
length (the stack discipline of slot allocation). -/
def IdxBound : Nat → List Scope → Prop
  | _, [] => True
  | c, sc :: rest => (∀ p ∈ sc.locals, p.2.index < c) ∧ IdxBound (c - sc.len) rest

/-- The invariant actually maintained by duplicate-free `Scopes` use:
the running count is one more than the live-local total, and the
slot-index bounds follow the stack discipline (`IdxBound`). -/
def StrongInv (s : Scopes) : Prop :=
  s.count = 1 + sumLens s.scopes ∧ IdxBound s.count s.scopes

/-! ## Theorems -/

/-- `u8` wrapping subtraction agrees with plain subtraction below the
wrap. -/
theorem u8sub_eq (a b : Nat) (hb : b ≤ a) (ha : a ≤ 255) :
    u8sub a b = a - b := by
  unfold u8sub
  omega

/-- `u16` wrapping subtraction agrees with plain subtraction below the
wrap. -/
theorem u16sub_eq (a b : Nat) (hb : b ≤ a) (ha : a ≤ 65535) :
    u16sub a b = a - b := by
  unfold u16sub
  omega

/-- `u16` wrapping addition agrees with plain addition below the wrap. -/
theorem u16add_eq (a b : Nat) (h : a + b ≤ 65535) :
    u16add a b = a + b := by
  unfold u16add
  omega

/-- C9: opcode encoding and decoding round-trip: every variant survives
`u8` conversion and back; every byte in `0..=27` survives decoding and
re-encoding; bytes `28..=255` have no decoding (the source decoder hits
`unreachable!`). -/
theorem c9_op_roundtrip :
    (∀ op : Op, Op.ofByte? op.toByte = some op) ∧
    (∀ b : Fin 256, b.val ≤ 27 → (Op.ofByte? b.val).map Op.toByte = some b.val) ∧
    (∀ b : Fin 256, 28 ≤ b.val → Op.ofByte? b.val = none) := by
  refine ⟨fun op => by cases op <;> rfl, by decide, by decide⟩

/-- Witness for `c9_op_roundtrip` at bytes 5 and 28. -/
theorem c9_op_roundtrip_witness :
    (Op.ofByte? (⟨5, by decide⟩ : Fin 256).val).map Op.toByte = some 5 ∧
    Op.ofByte? (⟨28, by decide⟩ : Fin 256).val = none :=
  ⟨c9_op_roundtrip.2.1 ⟨5, by decide⟩ (by decide),
   c9_op_roundtrip.2.2 ⟨28, by decide⟩ (by decide)⟩

/-- C1: evaluation of token.rs `TokenType::rule` at the three kinds named
by the claim.  The table is total (it is a total Lean function by
construction), but the bindings the claim asserts are absent in the
source: `(` has no infix entry and precedence `None` (not `call` /
`Call`), `identifier` has no prefix entry (not `variable`), and `and` has
no infix entry and precedence `None` (not `and` / `And`).  The repo's own
tests (tests/mod.rs) require the claimed bindings, so this is a defect of
token.rs, not of the claim. -/
theorem c1_rule_table_bindings :
    TokenType.rule .LeftParen = ⟨.None, some .grouping, none⟩ ∧
    TokenType.rule .Identifier = ⟨.None, none, none⟩ ∧
    TokenType.rule .And = ⟨.None, none, none⟩ ∧
    (TokenType.rule .LeftParen).infixFn ≠ some .call ∧
    (TokenType.rule .Identifier).prefixFn ≠ some .variableRef ∧
    (TokenType.rule .And).infixFn ≠ some .andFn := by
  decide

/-- C7 counterexample: the current compiler already holds the descriptor
`(is_local = true, index = 1)` for `x`, yet `resolve_upvalue` appends a
second identical descriptor and returns position 1, not the existing
position 0 as the claim states. -/
theorem c7_resolve_upvalue_counterexample :
    Compiler.resolve_upvalue compX "x" =
      .ok (some 1, .mk (some encX) Scopes.new [⟨1, true⟩, ⟨1, true⟩]) ∧
    (1 : Nat) ≠ 0 :=
  ⟨rfl, by decide⟩

/-- C7 (amended): `add_upvalue` never deduplicates: whenever the current
descriptor list holds at most 255 entries it appends unconditionally and
returns the previous length; it fails with the too-many-closure-variables
message exactly when the list already holds at least 256 descriptors (so
the descriptor count may reach 256, one past the claim's 255). -/
theorem c7_add_upvalue_amended (c : Compiler) (index : Nat) (is_local : Bool) :
    (c.upvalues.length ≤ 255 →
      c.add_upvalue index is_local =
        .ok (c.upvalues.length,
             .mk c.enclosing c.scopes (c.upvalues ++ [⟨index, is_local⟩]))) ∧
    (255 < c.upvalues.length →
      c.add_upvalue index is_local =
        .error "Too many closure variables in function.") := by
  constructor
  · intro h
    unfold Compiler.add_upvalue
    rw [if_neg (by omega)]
  · intro h
    unfold Compiler.add_upvalue
    rw [if_pos (by omega)]

/-- Witness for `c7_add_upvalue_amended` on an empty descriptor list. -/
theorem c7_add_upvalue_witness :
    Compiler.add_upvalue (.mk none Scopes.new []) 3 true =
      .ok (0, .mk none Scopes.new [⟨3, true⟩]) :=
  (c7_add_upvalue_amended (.mk none Scopes.new []) 3 true).1 (by decide)

/-- C8 counterexample: on a chunk holding 65535 code bytes, `emit_loop`
back to target 50000 fails with "Loop body too large." even though the
claimed offset (`code_len + 2 - target`, with `code_len` counting the
emitted `LOOP` byte) is only 15538 and does not exceed 65535: the source
tests the code length, not the offset, so "fails exactly when that offset
exceeds 65535" is false. -/
theorem c8_emit_loop_counterexample :
    Chunk.emit_loop ⟨List.replicate 65535 0, []⟩ 50000 =
      .error "Loop body too large." ∧
    65535 + 1 + 2 - 50000 ≤ 65535 := by
  constructor
  · have hlen :
        (Chunk.emit_op ⟨List.replicate 65535 0, []⟩ .Loop).codes.length
          = 65536 := by
      show (List.replicate 65535 0 ++ [Op.toByte .Loop]).length = 65536
      rw [List.length_append, List.length_replicate]
      rfl
    simp only [Chunk.emit_loop]
    rw [if_pos (by rw [hlen]; norm_num)]
  · omega

/-- C8 (amended): branch offsets are unsigned 16-bit little-endian.
`patch_jump` writes `code_len - placeholder - 2` low byte first into the
two placeholder bytes; `emit_loop` emits `LOOP` followed by
`code_len + 2 - target` (with `code_len` counting the `LOOP` byte) low
byte first; but `emit_loop` fails with "Loop body too large." exactly
when the code length including the `LOOP` byte exceeds 65535 — not when
the offset does. -/
theorem c8_branch_encoding (c : Chunk) (start : Nat) :
    (c.codes.length ≤ 65535 → start + 2 ≤ c.codes.length →
      Chunk.patch_jump c start =
        .ok { c with codes := (c.codes.set start ((c.codes.length - start - 2) % 256)).set (start + 1) ((c.codes.length - start - 2) / 256) }) ∧
    (c.codes.length + 3 ≤ 65535 → start ≤ c.codes.length + 3 →
      Chunk.emit_loop c start =
        .ok { c with codes := c.codes ++ [Op.toByte .Loop, (c.codes.length + 3 - start) % 256, (c.codes.length + 3 - start) / 256] }) ∧
    (65535 < c.codes.length + 1 →
      Chunk.emit_loop c start = .error "Loop body too large.") := by
  refine ⟨fun h1 h2 => ?_, fun h1 h2 => ?_, fun h1 => ?_⟩
  · have hoff : u16sub (u16sub c.codes.length 2) start
        = c.codes.length - start - 2 := by
      unfold u16sub
      omega
    simp only [Chunk.patch_jump, Chunk.write]
    rw [if_neg (by omega), hoff, if_pos (by omega)]
    simp only []
    rw [if_pos (by rw [List.length_set]; omega)]
  · have hlen : (c.codes ++ [Op.toByte .Loop]).length = c.codes.length + 1 := by
      rw [List.length_append]
      rfl
    have hoff : u16sub (u16add (c.codes ++ [Op.toByte .Loop]).length 2) start
        = c.codes.length + 3 - start := by
      rw [hlen]
      unfold u16sub u16add
      omega
    simp only [Chunk.emit_loop, Chunk.emit_op]
    rw [if_neg (by rw [hlen]; omega), hoff, List.append_assoc]
    rfl
  · have hlen : (c.codes ++ [Op.toByte .Loop]).length = c.codes.length + 1 := by
      rw [List.length_append]
      rfl
    simp only [Chunk.emit_loop, Chunk.emit_op]
    rw [if_pos (by rw [hlen]; omega)]

/-- Witness for `c8_branch_encoding`: patch a placeholder at offset 1 in
a 3-byte chunk and emit a loop in a 1-byte chunk. -/
theorem c8_branch_encoding_witness :
    Chunk.patch_jump ⟨[23, 255, 255], []⟩ 1 = .ok ⟨[23, 0, 0], []⟩ ∧
    Chunk.emit_loop ⟨[1], []⟩ 0 = .ok ⟨[1, 24, 4, 0], []⟩ :=
  ⟨(c8_branch_encoding ⟨[23, 255, 255], []⟩ 1).1 (by decide) (by decide),
   (c8_branch_encoding ⟨[1], []⟩ 0).2.1 (by decide) (by decide)⟩

/-- `HashMap::insert` appends a fresh binding when the key is absent. -/
theorem insertGlobal_of_lookup_none (l : List (String × Value)) (name : String)
    (v : Value) (h : lookupGlobal l name = none) :
    insertGlobal l name v = (none, l ++ [(name, v)]) := by
  induction l with
  | nil => rfl
  | cons p rest ih =>
      obtain ⟨k, w⟩ := p
      by_cases hk : k = name
      · rw [lookupGlobal, if_pos hk] at h
        exact absurd h (by simp)
      · rw [lookupGlobal, if_neg hk] at h
        rw [insertGlobal, if_neg hk, ih h]
        rfl

/-- C2 counterexample: executing SET_GLOBAL for the absent name `x` with
`7` on top of the stack fails with "Undefined variable." but does NOT
leave the globals table unchanged: the source inserts before checking, so
after the failing instruction `x` is bound to `7`. -/
theorem c2_set_global_counterexample :
    VM.step vmSetG frameSetG =
      .err "Undefined variable." ⟨[], [.Number 7], 1, [("x", .Number 7)], []⟩ ∧
    lookupGlobal [("x", Value.Number 7)] "x" = some (.Number 7) :=
  ⟨rfl, rfl⟩

/-- C2 (amended): executing SET_GLOBAL for a name absent from the globals
table fails with "Undefined variable.", but the failing instruction has
already mutated the table: `HashMap::insert` runs before the `ok_or`
check, so afterwards the name is bound to `peek(0)`. -/
theorem c2_set_global_amended (vm : VM) (cl : Closure) (i start b : Nat)
    (name : String) (v : Value)
    (h9 : cl.function.chunk.codes.get? i = some 9)
    (hb : cl.function.chunk.codes.get? (i + 1) = some b)
    (hc : cl.function.chunk.constants.get? b = some (.Str name))
    (hlen : 1 ≤ vm.len)
    (hv : vm.buffer.get? (vm.len - 1) = some v)
    (hmiss : lookupGlobal vm.globals name = none) :
    VM.step vm ⟨cl, i, start⟩ =
      .err "Undefined variable."
        { vm with globals := vm.globals ++ [(name, v)] } := by
  unfold VM.step CallFrame.read_byte?
  rw [h9]
  simp only [Option.map]
  show execOp vm ⟨cl, i + 1, start⟩ .SetGlobal = _
  unfold execOp CallFrame.read_constant? CallFrame.read_byte?
  rw [hb]
  simp only [Option.map]
  rw [hc]
  simp only [Option.map, Value.as_string]
  unfold VM.peekVal
  rw [if_pos (by omega)]
  simp only [Nat.sub_zero]
  rw [hv]
  simp only [insertGlobal_of_lookup_none vm.globals name v hmiss]

/-- Witness for `c2_set_global_amended`: SET_GLOBAL on `z` with nonempty
globals lacking `z`. -/
theorem c2_set_global_witness :
    VM.step ⟨[], [.VBool true], 1, [("y", .Nil)], []⟩
        ⟨⟨⟨.Script, 0, ⟨[9, 0], [.Str "z"]⟩⟩, 0, []⟩, 0, 0⟩ =
      .err "Undefined variable."
        ⟨[], [.VBool true], 1, [("y", .Nil), ("z", .VBool true)], []⟩ :=
  c2_set_global_amended ⟨[], [.VBool true], 1, [("y", .Nil)], []⟩
    ⟨⟨.Script, 0, ⟨[9, 0], [.Str "z"]⟩⟩, 0, []⟩ 0 0 0 "z" (.VBool true)
    rfl rfl rfl (by decide) rfl rfl

/-- C3: executing SET_UPVALUE does not store `peek(0)` into the variable
referenced by the active closure's upvalue: value.rs `Upvalue::set`
assigns the `location` *pointer* field instead of writing through it.
Here upvalue 0 references cell 0 (holding `1`) and the stack top holds
`5`; after the instruction cell 0 still holds `1` (not `5` as the claim
requires) and the upvalue has been repointed at the stack-top cell 1, so
closures sharing the original upvalue never observe the assignment. -/
theorem c3_set_upvalue_bug :
    VM.step vmSetU frameSetU = .ok vmSetU ⟨⟨fnSetU, 1, [⟨1⟩]⟩, 2, 0⟩ ∧
    vmSetU.buffer.get? 0 = some (.Number 1) ∧
    Value.Number 1 ≠ Value.Number 5 := by
  refine ⟨rfl, rfl, fun h => ?_⟩
  rw [Value.Number.injEq] at h
  norm_num at h

/-- C5 counterexample: calling an arity-1 closure over an operand stack of
length 258 (inside the spec's resource bounds: 255 frames of up to 256
slots) succeeds with `slot_base = 0`, not `258 - 1 - 1 = 256` as the
claim states: the source computes `stack.len() as u8 - arg_count - 1`,
truncating the length to 8 bits first. -/
theorem c5_call_counterexample :
    Closure.call clCallee vmBigStack 1 frameCaller =
      .ok ({ vmBigStack with frames := [frameCaller] }, ⟨clCallee, 0, 0⟩) ∧
    (0 : Nat) ≠ vmBigStack.len - 1 - 1 :=
  ⟨rfl, by decide⟩

/-- C5 (amended): for an executed CALL on a closure, the arity-mismatch
failure carries the literal expected/got message and happens exactly on
mismatch (it is checked first); with matching arity the call fails with
"stack overflow." exactly when the frame depth has reached the 255 cap;
otherwise it pushes the suspended frame and starts the callee at
`slot_base = ((stack_len mod 256) - arg_count - 1)` in wrapping `u8`
arithmetic — which equals `stack_len - arg_count - 1` (slot 0 the callee,
slots 1..=arity the arguments) whenever `stack_len ≤ 255`. -/
theorem c5_call_amended (c : Closure) (vm : VM) (arg_count : Nat)
    (frame : CallFrame) :
    (arg_count ≠ c.function.arity →
      Closure.call c vm arg_count frame =
        .error (expectedMsg c.function.arity arg_count)) ∧
    (arg_count = c.function.arity → 255 ≤ vm.frames.length →
      Closure.call c vm arg_count frame = .error "stack overflow.") ∧
    (arg_count = c.function.arity → vm.frames.length < 255 →
      Closure.call c vm arg_count frame =
        .ok ({ vm with frames := frame :: vm.frames },
             ⟨c, 0, u8sub (u8sub (vm.len % 256) arg_count) 1⟩)) ∧
    (arg_count = c.function.arity → vm.frames.length < 255 →
      arg_count + 1 ≤ vm.len → vm.len ≤ 255 →
      Closure.call c vm arg_count frame =
        .ok ({ vm with frames := frame :: vm.frames },
             ⟨c, 0, vm.len - arg_count - 1⟩)) := by
  refine ⟨fun h => ?_, fun h h2 => ?_, fun h h2 => ?_, fun h h2 h3 h4 => ?_⟩
  · unfold Closure.call
    rw [if_pos h]
  · unfold Closure.call
    rw [if_neg (by simp [h]), if_pos (by omega)]
  · unfold Closure.call
    rw [if_neg (by simp [h]), if_neg (by omega)]
  · have e1 : vm.len % 256 = vm.len := Nat.mod_eq_of_lt (by omega)
    have e2 : u8sub (u8sub (vm.len % 256) arg_count) 1 = vm.len - arg_count - 1 := by
      rw [e1, u8sub_eq vm.len arg_count (by omega) (by omega),
          u8sub_eq (vm.len - arg_count) 1 (by omega) (by omega)]
    unfold Closure.call
    rw [if_neg (by simp [h]), if_neg (by omega), e2]

/-- Witness for `c5_call_amended`: arity-1 call over a 2-value stack lands
at `slot_base = 0`. -/
theorem c5_call_witness :
    Closure.call clCallee ⟨[], [.Closure clCallee, .Nil], 2, [], []⟩ 1
        frameCaller =
      .ok (⟨[frameCaller], [.Closure clCallee, .Nil], 2, [], []⟩,
           ⟨clCallee, 0, 0⟩) :=
  (c5_call_amended clCallee ⟨[], [.Closure clCallee, .Nil], 2, [], []⟩ 1
    frameCaller).2.2.2 rfl (by decide) (by decide) (by decide)

/-- C6: executing RETURN pops the result; when the frame stack is then
empty it also pops the script sentinel and halts; otherwise it truncates
the operand stack down to the returning frame's `slot_base`, pushes the
result there (discarding the callee, arguments and locals), and resumes
in the caller's frame at its saved instruction pointer (the frame record
is returned unchanged). -/
theorem c6_return (vm : VM) (cl : Closure) (i start : Nat) (result : Value)
    (h27 : cl.function.chunk.codes.get? i = some 27)
    (hlen : 1 ≤ vm.len)
    (hres : vm.buffer.get? (vm.len - 1) = some result) :
    (∀ sentinel : Value, vm.frames = [] → 2 ≤ vm.len →
        vm.buffer.get? (vm.len - 2) = some sentinel →
        VM.step vm ⟨cl, i, start⟩ = .halt { vm with len := vm.len - 2 }) ∧
    (∀ f rest, vm.frames = f :: rest →
        VM.step vm ⟨cl, i, start⟩ =
          .ok { vm with buffer := vecWrite vm.buffer start result, len := start + 1, frames := rest } f) := by
  have hstep : VM.step vm ⟨cl, i, start⟩ =
      execOp vm ⟨cl, i + 1, start⟩ .Return := by
    unfold VM.step CallFrame.read_byte?
    rw [h27]
    simp only [Option.map]
    rfl
  have hres' : vm.buffer[vm.len - 1]? = some result := by
    rw [← List.get?_eq_getElem?]
    exact hres
  constructor
  · intro sentinel hfr h2 hsent
    have hsent' : vm.buffer[vm.len - 2]? = some sentinel := by
      rw [← List.get?_eq_getElem?]
      exact hsent
    rw [hstep]
    unfold execOp VM.popVal
    have e : vm.len - 1 - 1 = vm.len - 2 := by omega
    simp [hfr, hres', e, hsent', show ¬ vm.len = 0 by omega,
          show ¬ (vm.len - 1 = 0) by omega]
  · intro f rest hfr
    rw [hstep]
    unfold execOp VM.popVal VM.function_return VM.push
    simp [hfr, hres', show ¬ vm.len = 0 by omega]

/-- Witness for `c6_return`: returning `3` from a frame with
`slot_base = 0` over the stack `[nil, 3]` to a suspended caller. -/
theorem c6_return_witness :
    VM.step ⟨[frameCaller], [.Nil, .Number 3], 2, [], []⟩
        ⟨⟨⟨.Fn "r", 0, ⟨[27], []⟩⟩, 0, []⟩, 0, 0⟩ =
      .ok ⟨[], [.Number 3, .Number 3], 1, [], []⟩ frameCaller :=
  (c6_return ⟨[frameCaller], [.Nil, .Number 3], 2, [], []⟩
      ⟨⟨.Fn "r", 0, ⟨[27], []⟩⟩, 0, []⟩ 0 0 (.Number 3)
      rfl (by decide) rfl).2 frameCaller [] rfl

/-- C4: closures do NOT reliably observe the captured value after the
enclosing function returns.  Conjunct 1: the claim's own program
`fun outer(){ var x=1; fun inner(){ print x; } return inner; } outer()();`
does print `1` (the leaked stack cell happens to survive).  Conjuncts
2-3: for the same declarations, the program
`var f = outer(); print 1 + f();` overwrites the leaked cell that held
`x` (the stack is `[script, 1, f]` when `f` is called), so `print x`
prints the `inner` closure itself rather than the captured `1`: the raw
`*mut Value` upvalue is a dangling pointer after `function_return`, and
nothing ever closes it over its value. -/
theorem c4_upvalue_after_return :
    (VM.runFuel 40 (VM.from_closure ⟨scriptA, 0, []⟩).1
        (VM.from_closure ⟨scriptA, 0, []⟩).2).finalOutput =
      some [.Number 1] ∧
    (VM.runFuel 40 (VM.from_closure ⟨scriptB, 0, []⟩).1
        (VM.from_closure ⟨scriptB, 0, []⟩).2).finalOutput =
      some [.Closure innerRuntime] ∧
    Value.Closure innerRuntime ≠ Value.Number 1 :=
  ⟨rfl, rfl, fun h => Value.noConfusion h⟩

/-- `HashMap::insert` appends when the key is absent from the scope. -/
theorem insertAssoc_append (l : List (String × Local)) (name : String)
    (v : Local) (h : ∀ p ∈ l, p.1 ≠ name) :
    insertAssoc l name v = l ++ [(name, v)] := by
  induction l with
  | nil => rfl
  | cons p rest ih =>
      obtain ⟨k, w⟩ := p
      have hk : k ≠ name := h (k, w) (List.mem_cons_self _ _)
      rw [insertAssoc, if_neg hk, ih (fun q hq => h q (List.mem_cons_of_mem _ hq))]
      rfl

/-- A `Scope.has`-miss means no entry carries the name. -/
theorem scope_has_false (sc : Scope) (name : String)
    (h : sc.has name = false) : ∀ p ∈ sc.locals, p.1 ≠ name := by
  intro p hp
  unfold Scope.has at h
  rw [List.any_eq_false] at h
  have := h p hp
  simpa using this

/-- The per-scope bounds of `IdxBound` all imply the global bound `c`. -/
theorem idxBound_all (c : Nat) (l : List Scope) (h : IdxBound c l) :
    ∀ sc ∈ l, ∀ p ∈ sc.locals, p.2.index < c := by
  induction l generalizing c with
  | nil => intro sc hsc; exact absurd hsc (List.not_mem_nil _)
  | cons s rest ih =>
      obtain ⟨h1, h2⟩ := h
      intro sc hsc p hp
      rcases List.mem_cons.mp hsc with rfl | hm
      · exact h1 p hp
      · exact lt_of_lt_of_le (ih _ h2 sc hm p hp) (Nat.sub_le _ _)

/-- Every reachable `Scopes` state satisfies the strengthened
invariant. -/
theorem strongInv_of_reach (s : Scopes) (h : ScopesReach s) : StrongInv s := by
  induction h with
  | new => exact ⟨rfl, trivial⟩
  | push s' _ ih =>
      obtain ⟨h1, h2⟩ := ih
      refine ⟨by simpa [Scopes.push, sumLens, Scope.new, Scope.len] using h1, ?_, ?_⟩
      · intro p hp
        exact absurd hp (List.not_mem_nil _)
      · simpa [Scope.new, Scope.len] using h2
  | pop s' sc s'' _ hpop ih =>
      obtain ⟨h1, h2⟩ := ih
      unfold Scopes.pop at hpop
      cases hsc : s'.scopes with
      | nil => rw [hsc] at hpop; exact absurd hpop (by simp)
      | cons sc0 rest =>
          rw [hsc] at hpop
          simp only [Option.some.injEq, Prod.mk.injEq] at hpop
          obtain ⟨rfl, rfl⟩ := hpop
          rw [hsc] at h1 h2
          obtain ⟨_, hb2⟩ := h2
          refine ⟨?_, hb2⟩
          simp only [sumLens, List.map_cons, List.sum_cons] at h1
          simp only [sumLens]
          omega
  | define s' name s'' _ hdup hdef ih =>
      obtain ⟨h1, h2⟩ := ih
      unfold Scopes.define_uninit_local at hdef
      cases hsc : s'.scopes with
      | nil => rw [hsc] at hdef; exact absurd hdef (by simp)
      | cons sc0 rest =>
          rw [hsc] at hdef
          simp only [] at hdef
          by_cases h255 : s'.count = 255
          · rw [if_pos h255] at hdef
            exact absurd hdef (by simp)
          · rw [if_neg h255] at hdef
            simp only [Except.ok.injEq] at hdef
            subst hdef
            have hhas : sc0.has name = false := by
              unfold Scopes.current_has at hdup
              rw [hsc] at hdup
              simp only [List.head?_cons, Option.map_some'] at hdup
              cases hv : sc0.has name
              · rfl
              · exact absurd (by rw [hv]) hdup
            have happ : (sc0.define name s'.count).locals
                = sc0.locals ++ [(name, Local.new_uninit s'.count)] := by
              unfold Scope.define
              rw [insertAssoc_append _ _ _ (scope_has_false sc0 name hhas)]
            rw [hsc] at h1 h2
            obtain ⟨hb1, hb2⟩ := h2
            have hlen : (sc0.define name s'.count).len = sc0.len + 1 := by
              unfold Scope.len
              rw [happ, List.length_append]
              rfl
            simp only [sumLens, List.map_cons, List.sum_cons] at h1
            refine ⟨?_, ?_, ?_⟩
            · simp only [sumLens, List.map_cons, List.sum_cons, hlen]
              omega
            · intro p hp
              rw [happ] at hp
              rcases List.mem_append.mp hp with hold | hnew
              · exact Nat.lt_succ_of_lt (hb1 p hold)
              · have : p = (name, Local.new_uninit s'.count) := by simpa using hnew
                rw [this]
                exact Nat.lt_succ_self _
            · rw [hlen]
              have : s'.count + 1 - (sc0.len + 1) = s'.count - sc0.len := by omega
              rw [this]
              exact hb2

/-- C10: every `Scopes` state reachable by duplicate-free use of `push`,
`pop` and `define_uninit_local` satisfies the invariant: the running
count equals 1 (reserved slot 0) plus the total number of locals across
all open scopes, and every recorded slot index is below the count. -/
theorem c10_scopes_invariant (s : Scopes) (h : ScopesReach s) :
    s.count = 1 + sumLens s.scopes ∧
    ∀ sc ∈ s.scopes, ∀ p ∈ sc.locals, p.2.index < s.count := by
  obtain ⟨h1, h2⟩ := strongInv_of_reach s h
  exact ⟨h1, idxBound_all s.count s.scopes h2⟩

/-- Witness for `c10_scopes_invariant`: `new`, `push`, then define `a`. -/
theorem c10_scopes_invariant_witness :
    (⟨[⟨[("a", Local.new_uninit 1)]⟩], 2⟩ : Scopes).count =
      1 + sumLens (⟨[⟨[("a", Local.new_uninit 1)]⟩], 2⟩ : Scopes).scopes ∧
    ∀ sc ∈ (⟨[⟨[("a", Local.new_uninit 1)]⟩], 2⟩ : Scopes).scopes,
      ∀ p ∈ sc.locals, p.2.index <
        (⟨[⟨[("a", Local.new_uninit 1)]⟩], 2⟩ : Scopes).count :=
  c10_scopes_invariant ⟨[⟨[("a", Local.new_uninit 1)]⟩], 2⟩
    (ScopesReach.define (Scopes.push Scopes.new) "a"
      ⟨[⟨[("a", Local.new_uninit 1)]⟩], 2⟩
      (ScopesReach.push Scopes.new ScopesReach.new)
      (by decide) rfl)
